import Mathlib

/-!
Shallow embedding of `supabase/functions/arbitrage-finder/index.ts`
(PredictOS arbitrage-finder edge function) together with proofs about the
claims of its specification.

Modelling conventions:
* JavaScript strings are `List Char` (`Str`).
* JavaScript numbers are `JNum`: either `nan` or an exact rational `val q`.
  (IEEE-754 rounding is abstracted away; none of the verified properties
  depends on rounding, only on the NaN/number distinction and on exact
  arithmetic identities such as `q + (100 - q) = 100`.)
* An absent object field (`undefined`) is `Option.none`.
* External effects (the `fetch`/dflow HTTP calls, the URL parser and the two
  AI backends) are oracles collected in an `Env` record; the body of each
  source function is translated faithfully around those oracles.
-/

/-- JavaScript strings as lists of characters. -/
abbrev Str := List Char

/-- A JavaScript number: `nan` or an exact rational value. -/
inductive JNum where
  | nan : JNum
  | val : ℚ → JNum
deriving DecidableEq

/-- JavaScript `+` on possibly-undefined numbers: any operand that is
`undefined` or `NaN` makes the result `NaN`. -/
def jnAdd : JNum → JNum → JNum
  | JNum.val a, JNum.val b => JNum.val (a + b)
  | _, _ => JNum.nan

/-- JavaScript `x / 2`. -/
def jnHalf : JNum → JNum
  | JNum.val a => JNum.val (a / 2)
  | JNum.nan => JNum.nan

/-- Coercion of a possibly-absent field into arithmetic position:
`undefined` used as a number is `NaN`. -/
def undefToNan : Option JNum → JNum
  | none => JNum.nan
  | some x => x

/-- JavaScript `a || b` where `a` is a possibly-undefined number:
`undefined`, `NaN` and `0` are falsy. -/
def jsOrNum (a : Option JNum) (b : JNum) : JNum :=
  match a with
  | some (JNum.val q) => if q = 0 then b else JNum.val q
  | _ => b

/-- Result of JavaScript `parseFloat` lifted to `JNum` (`none` models `NaN`). -/
def pfToJNum : Option ℚ → JNum
  | none => JNum.nan
  | some q => JNum.val q

/-- Whitespace characters recognised by the model of `trim` / `split(\s+)`
(space, tab, LF, VT, FF, CR; the exotic Unicode space code points of the
JavaScript classes are irrelevant to the sources' call sites). -/
def isWsChar (c : Char) : Bool :=
  c = ' ' || c = Char.ofNat 9 || c = Char.ofNat 10 || c = Char.ofNat 11 ||
    c = Char.ofNat 12 || c = Char.ofNat 13

/-- The quote characters removed by `text.replace` in `generateSearchQuery`:
double quote (34) and single quote (39). -/
def isQuoteChar (c : Char) : Bool :=
  c = Char.ofNat 34 || c = Char.ofNat 39

/-- Model of `text.replace` removing every quote character. -/
def removeQuotes (s : Str) : Str := s.filter (fun c => !isQuoteChar c)

/-- Model of JavaScript `String.prototype.trim`. -/
def trimStr (s : Str) : Str :=
  ((s.dropWhile isWsChar).reverse.dropWhile isWsChar).reverse

/-- Accumulator worker for `wordsOf`: splits into maximal runs of
non-whitespace characters. -/
def splitWsAux : Str → Str → List Str
  | [], acc => if acc = [] then [] else [acc.reverse]
  | c :: cs, acc =>
    if isWsChar c then
      if acc = [] then splitWsAux cs [] else acc.reverse :: splitWsAux cs []
    else splitWsAux cs (c :: acc)

/-- The maximal whitespace-free runs of a string. -/
def wordsOf (s : Str) : List Str := splitWsAux s []

/-- Model of JavaScript `s.split(\s+)` at its single call site, where `s` is
already trimmed: an empty string yields one empty piece, otherwise the
maximal non-whitespace runs. -/
def jsSplitWs (s : Str) : List Str := if s = [] then [[]] else wordsOf s

/-- Model of `Array.prototype.join` with separator a single space. -/
def joinSpace : List Str → Str
  | [] => []
  | [w] => w
  | w :: ws => w ++ ' ' :: joinSpace ws

/-- Post-processing of the raw AI completion in `generateSearchQuery`
(index.ts lines 398-402): remove quotes, trim, split on whitespace, keep the
first two tokens, rejoin with a single space. -/
def cleanupQuery (text : Str) : Str :=
  let cleaned := trimStr (removeQuotes text)
  joinSpace ((jsSplitWs cleaned).take 2)

/-- Model of `needle` being a prefix of `hay` (JavaScript `startsWith`). -/
def startsWithL : Str → Str → Bool
  | [], _ => true
  | _ :: _, [] => false
  | c :: cs, d :: ds => c = d && startsWithL cs ds

/-- Model of JavaScript `hay.includes(needle)` (substring containment). -/
def containsSub (needle : Str) : Str → Bool
  | [] => startsWithL needle []
  | c :: rest => startsWithL needle (c :: rest) || containsSub needle rest

/-- Model of `String.prototype.toLowerCase` (per-character). -/
def toLowerStr (s : Str) : Str := s.map Char.toLower

/-- Model of `String.prototype.toUpperCase` (per-character). -/
def toUpperStr (s : Str) : Str := s.map Char.toUpper

/-- The two supported trading platforms (`ArbitrageMarketSource`). -/
inductive Platform where
  | polymarket : Platform
  | kalshi : Platform
deriving DecidableEq

/-- The opposite platform searched by the pipeline (index.ts line 580). -/
def Platform.opposite : Platform → Platform
  | Platform.polymarket => Platform.kalshi
  | Platform.kalshi => Platform.polymarket

/-- `OPENAI_MODELS` allow-list constant (index.ts line 35). -/
def OPENAI_MODELS : List Str :=
  ["gpt-5.2".toList, "gpt-5.1".toList, "gpt-5-nano".toList,
    "gpt-4.1".toList, "gpt-4.1-mini".toList]

/-- The recognized model prefix `gpt-`. -/
def gptDash : Str := "gpt-".toList

/-- `isOpenAIModel` (index.ts lines 37-39): allow-list membership or the
recognized `gpt-` prefix. -/
def isOpenAIModel (model : Str) : Bool :=
  decide (model ∈ OPENAI_MODELS) || startsWithL gptDash model

/-- The two AI backends. -/
inductive Backend where
  | openai : Backend
  | grok : Backend
deriving DecidableEq

/-- `SimplifiedMarket` (index.ts lines 48-51). -/
structure SimplifiedMarket where
  title : Str
  yesPrice : JNum
deriving DecidableEq

/-- `SourceEventData` (index.ts lines 54-58). -/
structure SourceEventData where
  eventTitle : Str
  markets : List SimplifiedMarket
  source : Platform
deriving DecidableEq

/-- Result of a successful JavaScript `new URL(...)` call, restricted to the
field the sources read. -/
structure UrlObj where
  pathname : Str
deriving DecidableEq

/-- Model of JavaScript `pathname.split(sep)` keeping empty pieces. -/
def splitOnChar (sep : Char) : Str → List Str
  | [] => [[]]
  | c :: cs =>
    match splitOnChar sep cs with
    | [] => [[c]]
    | w :: ws => if c = sep then [] :: w :: ws else (c :: w) :: ws

/-- `urlObj.pathname.split(slash).filter(p => p)`: the non-empty path
segments (index.ts lines 81, 102). -/
def pathSegments (pathname : Str) : List Str :=
  (splitOnChar '/' pathname).filter (fun p => p ≠ [])

/-- The literal path segment strings compared against. -/
def strEvent : Str := "event".toList

def strMarkets : Str := "markets".toList

def strEvents : Str := "events".toList

/-- `extractPolymarketSlug` (index.ts lines 78-92).  The `Option UrlObj`
argument models `new URL(url)`: `none` is a parse failure, absorbed by the
`try/catch` into `null`. -/
def extractPolymarketSlug : Option UrlObj → Option Str
  | none => none
  | some urlObj =>
    match pathSegments urlObj.pathname with
    | p0 :: p1 :: _ => if p0 = strEvent then some p1 else none
    | _ => none

/-- `extractKalshiTicker` (index.ts lines 99-116).  `Option UrlObj` models
`new URL(url)` as in `extractPolymarketSlug`. -/
def extractKalshiTicker : Option UrlObj → Option Str
  | none => none
  | some urlObj =>
    let pathParts := pathSegments urlObj.pathname
    if (pathParts.getD 0 [] = strMarkets ∨ pathParts.getD 0 [] = strEvents) ∧
        2 ≤ pathParts.length then
      some (toUpperStr
        (if 4 ≤ pathParts.length then pathParts.getLastD [] else pathParts.getD 1 []))
    else none

/-- `detectPlatform` (index.ts lines 67-72). -/
def detectPlatform (url : Str) : Option Platform :=
  let lowerUrl := toLowerStr url
  if containsSub "polymarket.com".toList lowerUrl then some Platform.polymarket
  else if containsSub "kalshi.com".toList lowerUrl then some Platform.kalshi
  else none

/-- Upstream Polymarket market payload, quotiented to the fields the
normalization reads.  `question`/`title` use `[]` for an absent or empty
(falsy) field.  `outcomePrices` is `none` when the field is absent or falsy;
`parseError` when `JSON.parse` of it throws; and `parsed v` when `JSON.parse`
succeeds, where `v` is the result of `parseFloat(prices[0])`: `none` for
`NaN` (non-numeric, or a missing first element), `some q` for a number. -/
inductive OutcomeField where
  | parseError : OutcomeField
  | parsed : Option ℚ → OutcomeField
deriving DecidableEq

structure PolyMarketPayload where
  question : Str
  title : Str
  outcomePrices : Option OutcomeField
deriving DecidableEq

/-- Per-market normalization inside `fetchPolymarketEvent` (index.ts lines
142-157) and `searchPolymarket` (lines 242-258): both loops run the same
statements; `none` means the market was skipped because its title is falsy. -/
def polyNormalizeMarket (m : PolyMarketPayload) : Option SimplifiedMarket :=
  let title := if m.question ≠ [] then m.question else m.title
  let yesPrice : JNum :=
    match m.outcomePrices with
    | none => JNum.val 50
    | some OutcomeField.parseError => JNum.val 50
    | some (OutcomeField.parsed none) => JNum.nan
    | some (OutcomeField.parsed (some q)) => JNum.val (q * 100)
  if title = [] then none else some { title := title, yesPrice := yesPrice }

/-- Upstream Polymarket event payload (fetch and search responses share the
shape).  `markets = none` models an absent or non-array `markets` field. -/
structure PolyEventPayload where
  title : Str
  markets : Option (List PolyMarketPayload)
deriving DecidableEq

/-- `slug.replace(dash, space)` (index.ts line 162). -/
def dashToSpace (s : Str) : Str := s.map (fun c => if c = '-' then ' ' else c)

/-- Normalization half of `fetchPolymarketEvent` (index.ts lines 137-165),
applied to a successfully fetched and JSON-decoded event payload. -/
def fetchPolymarketEventNorm (slug : Str) (event : PolyEventPayload) :
    SourceEventData :=
  { eventTitle := if event.title ≠ [] then event.title else dashToSpace slug,
    markets := (event.markets.getD []).filterMap polyNormalizeMarket,
    source := Platform.polymarket }

/-- Upstream Kalshi (dflow) market payload on the fetch path.  The declared
TypeScript fields `last_price`, `yes_bid`, `yes_ask` are numbers; `none`
models an absent field (`undefined`), `some (JNum.nan)` a NaN value. -/
structure KalshiFetchMarketPayload where
  title : Str
  last_price : Option JNum
  yes_bid : Option JNum
  yes_ask : Option JNum
deriving DecidableEq

/-- Per-market normalization inside `fetchKalshiEvent` (index.ts lines
194-203): `last_price || ((yes_bid + yes_ask) / 2)`, keep only markets with
a truthy title. -/
def kalshiFetchNormalizeMarket (m : KalshiFetchMarketPayload) :
    Option SimplifiedMarket :=
  let yesPrice :=
    jsOrNum m.last_price (jnHalf (jnAdd (undefToNan m.yes_bid) (undefToNan m.yes_ask)))
  if m.title = [] then none else some { title := m.title, yesPrice := yesPrice }

/-- Upstream Kalshi event payload on the fetch path (`event_ticker` is never
read and is omitted). -/
structure KalshiEventPayload where
  title : Str
  markets : Option (List KalshiFetchMarketPayload)
deriving DecidableEq

/-- Normalization half of `fetchKalshiEvent` (index.ts lines 192-210). -/
def fetchKalshiEventNorm (ticker : Str) (response : KalshiEventPayload) :
    SourceEventData :=
  { eventTitle := if response.title ≠ [] then response.title else ticker,
    markets := (response.markets.getD []).filterMap kalshiFetchNormalizeMarket,
    source := Platform.kalshi }

/-- Upstream Kalshi market payload on the search path: `yesAsk`/`yesBid` are
decimal strings; `none` models an absent or empty (falsy) field, `some v`
a truthy string whose `parseFloat` result is `v` (`none` inside = NaN). -/
structure KalshiSearchMarketPayload where
  title : Str
  yesAsk : Option (Option ℚ)
  yesBid : Option (Option ℚ)
deriving DecidableEq

/-- Per-market normalization inside `searchKalshi` (index.ts lines 301-318). -/
def kalshiSearchNormalizeMarket (m : KalshiSearchMarketPayload) :
    Option SimplifiedMarket :=
  let yesPrice :=
    match m.yesAsk, m.yesBid with
    | some a, some b => jnHalf (jnAdd (pfToJNum a) (pfToJNum b))
    | some a, none => pfToJNum a
    | none, some b => pfToJNum b
    | none, none => JNum.val 50
  if m.title = [] then none else some { title := m.title, yesPrice := yesPrice }

/-- Upstream Kalshi event payload on the search path. -/
structure KalshiSearchEventPayload where
  title : Str
  markets : Option (List KalshiSearchMarketPayload)
deriving DecidableEq

/-- Normalization half of `searchPolymarket` (index.ts lines 235-263): all
markets of all events are flattened; `none` (transport failure, non-ok
status or a non-array response) degrades to the empty list. -/
def searchPolymarketRun (response : Option (List PolyEventPayload)) :
    List SimplifiedMarket :=
  match response with
  | none => []
  | some events => events.flatMap (fun ev => (ev.markets.getD []).filterMap polyNormalizeMarket)

/-- Normalization half of `searchKalshi` (index.ts lines 296-323): `none`
(transport failure or an absent/non-array `events` field) degrades to the
empty list. -/
def searchKalshiRun (response : Option (List KalshiSearchEventPayload)) :
    List SimplifiedMarket :=
  match response with
  | none => []
  | some events =>
    events.flatMap (fun ev => (ev.markets.getD []).filterMap kalshiSearchNormalizeMarket)

/-- Modelled from the spec: the raw payload attached to an
`ArbitrageMarketData` for audit (the `rawData` value built at index.ts
lines 428-433 and 656; the declaring `types.ts` is not part of the
sources). -/
structure RawSourceData where
  eventTitle : Str
  markets : List SimplifiedMarket
deriving DecidableEq

/-- Modelled from the spec: `ArbitrageMarketData` of `types.ts` (not part of
the sources), reconstructed from the spec's §3 shape and every field written
by index.ts. -/
structure ArbitrageMarketData where
  source : Platform
  name : Str
  identifier : Str
  yesPrice : JNum
  noPrice : JNum
  url : Str
  rawData : Option RawSourceData
deriving DecidableEq

/-- Modelled from the spec: the `arbitrage` sub-object of
`ArbitrageAnalysis` (`types.ts` is not part of the sources); only
`hasArbitrage` is ever inspected by the sources or the claims, the optional
opportunity details are elided. -/
structure ArbitrageVerdict where
  hasArbitrage : Bool
deriving DecidableEq

/-- Modelled from the spec: `ArbitrageAnalysis` of `types.ts` (not part of
the sources), reconstructed from the spec's §3 shape and the assembly at
index.ts lines 499-509. -/
structure ArbitrageAnalysis where
  isSameMarket : Bool
  sameMarketConfidence : JNum
  marketComparisonReasoning : Str
  polymarketData : Option ArbitrageMarketData
  kalshiData : Option ArbitrageMarketData
  arbitrage : ArbitrageVerdict
  summary : Str
  risks : List Str
  recommendation : Str
deriving DecidableEq

/-- The fields of a successfully JSON-parsed Arbitrage-Judge response that
index.ts reads (lines 499-509).  `matchedMarket = none` models an absent or
otherwise falsy `matchedMarket` field (turned into `undefined` by
`parsed.matchedMarket || undefined`). -/
structure ParsedJudge where
  isSameMarket : Bool
  sameMarketConfidence : JNum
  marketComparisonReasoning : Str
  matchedMarket : Option ArbitrageMarketData
  arbitrage : ArbitrageVerdict
  summary : Str
  risks : List Str
  recommendation : Str
deriving DecidableEq

/-- The expression `sourceEvent.markets[0]?.yesPrice || 50` (index.ts lines
422-423, 653-654, 662-663): optional chaining yields `undefined` on an empty
list, and `undefined`, `NaN` and `0` are all falsy. -/
def yesOr50 (markets : List SimplifiedMarket) : ℚ :=
  match markets with
  | [] => 50
  | m :: _ =>
    match m.yesPrice with
    | JNum.nan => 50
    | JNum.val q => if q = 0 then 50 else q

/-- The source-market projection: the `ArbitrageMarketData` literal built
identically (up to `url`) at index.ts lines 418-433 (Judge path, `url` is
the empty string) and 649-666 (early-exit path, `url` is the request URL). -/
def sourceProjection (ev : SourceEventData) (url : Str) : ArbitrageMarketData :=
  { source := ev.source,
    name := ev.eventTitle,
    identifier := ev.eventTitle,
    yesPrice := JNum.val (yesOr50 ev.markets),
    noPrice := JNum.val (100 - yesOr50 ev.markets),
    url := url,
    rawData := some { eventTitle := ev.eventTitle, markets := ev.markets } }

/-- Result of `generateSearchQuery` (index.ts lines 337-402): the backend
selected at line 349 and the post-processed query.  `raw` is the joined and
trimmed completion text delivered by whichever backend was called; the
transport of both backends is oracled away, the routing and the
post-processing are translated. -/
structure QueryGenResult where
  backend : Backend
  query : Str
deriving DecidableEq

def generateSearchQuery (model : Str) (raw : Str) : QueryGenResult :=
  { backend := if isOpenAIModel model then Backend.openai else Backend.grok,
    query := cleanupQuery raw }

/-- `analyzeArbitrage` (index.ts lines 407-512): the backend selected at
line 441 and the assembled analysis.  The parameter `parsedResponse` is the
outcome of `JSON.parse(text)` on the joined completion text: `none` models a
parse failure, which throws out of the function (the `modelUsed`/`tokensUsed`
metadata outputs are not modelled; no claim mentions them). -/
def analyzeArbitrage (model : Str) (sourceEvent : SourceEventData)
    (parsedResponse : Option ParsedJudge) : Backend × Option ArbitrageAnalysis :=
  let sourceMarket := sourceProjection sourceEvent []
  ⟨if isOpenAIModel model then Backend.openai else Backend.grok,
    match parsedResponse with
    | none => none
    | some parsed =>
      some { isSameMarket := parsed.isSameMarket,
             sameMarketConfidence := parsed.sameMarketConfidence,
             marketComparisonReasoning := parsed.marketComparisonReasoning,
             polymarketData :=
               if sourceEvent.source = Platform.polymarket then some sourceMarket
               else parsed.matchedMarket,
             kalshiData :=
               if sourceEvent.source = Platform.kalshi then some sourceMarket
               else parsed.matchedMarket,
             arbitrage := parsed.arbitrage,
             summary := parsed.summary,
             risks := parsed.risks,
             recommendation := parsed.recommendation }⟩

/-- Display name of a platform as interpolated into messages. -/
def platformName : Platform → Str
  | Platform.polymarket => "polymarket".toList
  | Platform.kalshi => "kalshi".toList

/-- The canned `ArbitrageAnalysis` of the early-exit branch (index.ts lines
643-673). -/
def earlyExitAnalysis (sourcePlatform : Platform) (sourceEvent : SourceEventData)
    (url searchQuery : Str) : ArbitrageAnalysis :=
  let searchPlatform := sourcePlatform.opposite
  let slot : Platform → ArbitrageMarketData := fun ps =>
    { source := ps,
      name := sourceEvent.eventTitle,
      identifier := sourceEvent.eventTitle,
      yesPrice := JNum.val (yesOr50 sourceEvent.markets),
      noPrice := JNum.val (100 - yesOr50 sourceEvent.markets),
      url := url,
      rawData := some { eventTitle := sourceEvent.eventTitle,
                        markets := sourceEvent.markets } }
  { isSameMarket := false,
    sameMarketConfidence := JNum.val 0,
    marketComparisonReasoning :=
      "No matching markets found on ".toList ++ platformName searchPlatform ++
        " for query \x22".toList ++ searchQuery ++ "\x22".toList,
    polymarketData :=
      if sourcePlatform = Platform.polymarket then some (slot Platform.polymarket)
      else none,
    kalshiData :=
      if sourcePlatform = Platform.kalshi then some (slot Platform.kalshi) else none,
    arbitrage := { hasArbitrage := false },
    summary :=
      "No matching markets found on ".toList ++ platformName searchPlatform ++
        ". Cannot determine arbitrage opportunity.".toList,
    risks := ["No matching market found on the other platform".toList],
    recommendation :=
      "Try a different event or check if the market exists on both platforms.".toList }

/-- HTTP method of the incoming request (every method other than `OPTIONS`
and `POST` behaves identically). -/
inductive Method where
  | OPTIONS : Method
  | POST : Method
  | other : Method
deriving DecidableEq

/-- Parsed request body; `url`/`model` use `[]` for an absent or empty
(falsy) field. -/
structure ReqBody where
  url : Str
  model : Str
deriving DecidableEq

/-- An incoming request; `body = none` models `await req.json()` throwing
(invalid JSON). -/
structure Req where
  method : Method
  body : Option ReqBody
deriving DecidableEq

/-- JSON body of a response (`success`, optional `error`, optional `data`;
the `metadata` object — request id, timestamp, elapsed time, model — is
non-deterministic plumbing no claim mentions and is not modelled). -/
structure RespBody where
  success : Bool
  error : Option Str
  data : Option ArbitrageAnalysis
deriving DecidableEq

/-- An HTTP response; `body = none` is the body-less CORS preflight reply. -/
structure HttpResp where
  status : Nat
  body : Option RespBody
deriving DecidableEq

/-- Handler outcome: the response plus the number of Arbitrage-Judge
invocations (AI calls made by `analyzeArbitrage`) performed while serving
the request. -/
structure HandlerOut where
  resp : HttpResp
  judgeCalls : Nat
deriving DecidableEq

/-- The external world of one request: the URL parser, the upstream market
APIs (as decoded payloads keyed by slug/ticker/query; `none` is any
transport / status / decode failure) and the two-stage AI completions.
`queryRawText`/`judgeRawText` are the joined completion texts of the
respective calls (`none` models the AI call throwing), and `jsonParse`
is the outcome of `JSON.parse` on a given text. -/
structure Env where
  parseUrl : Str → Option UrlObj
  polyEventPayload : Str → Option PolyEventPayload
  kalshiEventPayload : Str → Option KalshiEventPayload
  polySearchPayload : Str → Option (List PolyEventPayload)
  kalshiSearchPayload : Str → Option (List KalshiSearchEventPayload)
  queryRawText : Option Str
  judgeRawText : Option Str
  jsonParse : Str → Option ParsedJudge

/-- The per-platform identifier extraction of the handler (index.ts lines
582-601). -/
def resolveIdent (env : Env) (sourcePlatform : Platform) (url : Str) : Option Str :=
  match sourcePlatform with
  | Platform.polymarket => extractPolymarketSlug (env.parseUrl url)
  | Platform.kalshi => extractKalshiTicker (env.parseUrl url)

/-- The per-platform source-event fetch of the handler (index.ts lines
591, 601), composed with the normalization halves of
`fetchPolymarketEvent` / `fetchKalshiEvent`. -/
def fetchSourceEvent (env : Env) (sourcePlatform : Platform) (ident : Str) :
    Option SourceEventData :=
  match sourcePlatform with
  | Platform.polymarket => (env.polyEventPayload ident).map (fetchPolymarketEventNorm ident)
  | Platform.kalshi => (env.kalshiEventPayload ident).map (fetchKalshiEventNorm ident)

/-- The opposite-platform search of the handler (index.ts lines 630-634). -/
def searchOpposite (env : Env) (sourcePlatform : Platform) (query : Str) :
    List SimplifiedMarket :=
  match sourcePlatform.opposite with
  | Platform.polymarket => searchPolymarketRun (env.polySearchPayload query)
  | Platform.kalshi => searchKalshiRun (env.kalshiSearchPayload query)

/-- Fixed response messages (the source interpolates further detail into
some of them; the text plays no role in any claim). -/
def msg405 : Str := "Method not allowed. Use POST.".toList

def msgBadJson : Str := "Invalid JSON in request body".toList

def msgNoUrl : Str := "Missing required parameter: url".toList

def msgNoModel : Str := "Missing required parameter: model".toList

def msgBadPlatform : Str :=
  "Invalid URL. Must be a Polymarket or Kalshi market URL.".toList

def msgNoIdent : Str := "Could not extract identifier from URL".toList

def msg404 : Str :=
  "Could not fetch event data. The event may not exist or have no markets.".toList

def msgUnhandled : Str := "An unexpected error occurred".toList

/-- The `Deno.serve` request handler (index.ts lines 518-741).  The
translation is a straight-line rendering of its control flow; the `catch`
clause at lines 723-740 is reached exactly when one of the two AI calls or
`JSON.parse` of the Judge text throws, which are the `none` cases below. -/
def handleRequest (env : Env) (req : Req) : HandlerOut :=
  match req.method with
  | Method.OPTIONS => ⟨⟨200, none⟩, 0⟩
  | Method.other => ⟨⟨405, some ⟨false, some msg405, none⟩⟩, 0⟩
  | Method.POST =>
    match req.body with
    | none => ⟨⟨400, some ⟨false, some msgBadJson, none⟩⟩, 0⟩
    | some body =>
      if body.url = [] then ⟨⟨400, some ⟨false, some msgNoUrl, none⟩⟩, 0⟩
      else if body.model = [] then ⟨⟨400, some ⟨false, some msgNoModel, none⟩⟩, 0⟩
      else
        match detectPlatform body.url with
        | none => ⟨⟨400, some ⟨false, some msgBadPlatform, none⟩⟩, 0⟩
        | some sourcePlatform =>
          match resolveIdent env sourcePlatform body.url with
          | none => ⟨⟨400, some ⟨false, some msgNoIdent, none⟩⟩, 0⟩
          | some ident =>
            match fetchSourceEvent env sourcePlatform ident with
            | none => ⟨⟨404, some ⟨false, some msg404, none⟩⟩, 0⟩
            | some sourceEvent =>
              if sourceEvent.markets = [] then
                ⟨⟨404, some ⟨false, some msg404, none⟩⟩, 0⟩
              else
                match env.queryRawText with
                | none => ⟨⟨500, some ⟨false, some msgUnhandled, none⟩⟩, 0⟩
                | some raw =>
                  let searchQuery := (generateSearchQuery body.model raw).query
                  let searchResults := searchOpposite env sourcePlatform searchQuery
                  if searchResults = [] then
                    ⟨⟨200, some ⟨true, none,
                        some (earlyExitAnalysis sourcePlatform sourceEvent body.url
                          searchQuery)⟩⟩, 0⟩
                  else
                    match env.judgeRawText with
                    | none => ⟨⟨500, some ⟨false, some msgUnhandled, none⟩⟩, 1⟩
                    | some judgeText =>
                      match (analyzeArbitrage body.model sourceEvent
                          (env.jsonParse judgeText)).2 with
                      | none => ⟨⟨500, some ⟨false, some msgUnhandled, none⟩⟩, 1⟩
                      | some analysis => ⟨⟨200, some ⟨true, none, some analysis⟩⟩, 1⟩

/-- The analysis slot belonging to a platform. -/
def slotOf (p : Platform) (a : ArbitrageAnalysis) : Option ArbitrageMarketData :=
  match p with
  | Platform.polymarket => a.polymarketData
  | Platform.kalshi => a.kalshiData

/-! Concrete inputs used by the witness and counterexample theorems below. -/

/-- A Polymarket market payload with no `outcomePrices` field. -/
def mPoly50 : PolyMarketPayload :=
  { question := "Will it rain".toList, title := [], outcomePrices := none }

/-- A Polymarket market payload whose `outcomePrices` parses to an array
with a non-numeric first element (`parseFloat` gives NaN). -/
def mPolyNan : PolyMarketPayload :=
  { question := "Will it rain".toList, title := [],
    outcomePrices := some (OutcomeField.parsed none) }

/-- A Kalshi fetch-path market payload whose price fields are all absent. -/
def mKalshiFetchAbsent : KalshiFetchMarketPayload :=
  { title := "Rain market".toList, last_price := none, yes_bid := none, yes_ask := none }

/-- A Kalshi search-path market payload whose price fields are both absent. -/
def mKalshiSearchAbsent : KalshiSearchMarketPayload :=
  { title := "Rain market".toList, yesAsk := none, yesBid := none }

def smPoly50 : SimplifiedMarket := { title := "Will it rain".toList, yesPrice := JNum.val 50 }

def smPolyNan : SimplifiedMarket := { title := "Will it rain".toList, yesPrice := JNum.nan }

def smKfetchNan : SimplifiedMarket := { title := "Rain market".toList, yesPrice := JNum.nan }

def smKsearch50 : SimplifiedMarket := { title := "Rain market".toList, yesPrice := JNum.val 50 }

/-- A matched-candidate record whose prices do not sum to 100. -/
def mmBad : ArbitrageMarketData :=
  { source := Platform.kalshi, name := "K market".toList, identifier := "K".toList,
    yesPrice := JNum.val 30, noPrice := JNum.val 30, url := [], rawData := none }

/-- A parsed Judge response carrying `mmBad` as its matched market. -/
def parsedBad : ParsedJudge :=
  { isSameMarket := true, sameMarketConfidence := JNum.val 90,
    marketComparisonReasoning := [], matchedMarket := some mmBad,
    arbitrage := { hasArbitrage := true }, summary := [], risks := [],
    recommendation := [] }

/-- A Polymarket source event with one market priced at 40. -/
def evPoly : SourceEventData :=
  { eventTitle := "Rain event".toList,
    markets := [{ title := "Rain market".toList, yesPrice := JNum.val 40 }],
    source := Platform.polymarket }

/-- The analysis assembled from `evPoly` and `parsedBad`. -/
def anBad : ArbitrageAnalysis :=
  { isSameMarket := true, sameMarketConfidence := JNum.val 90,
    marketComparisonReasoning := [],
    polymarketData := some (sourceProjection evPoly []),
    kalshiData := some mmBad,
    arbitrage := { hasArbitrage := true }, summary := [], risks := [],
    recommendation := [] }

/-- A Kalshi source event whose first market has yesPrice exactly 0. -/
def evZero : SourceEventData :=
  { eventTitle := "Z event".toList,
    markets := [{ title := "Z market".toList, yesPrice := JNum.val 0 }],
    source := Platform.kalshi }

/-- A parsed Judge response with no matched market. -/
def parsedOk : ParsedJudge :=
  { isSameMarket := true, sameMarketConfidence := JNum.val 80,
    marketComparisonReasoning := [], matchedMarket := none,
    arbitrage := { hasArbitrage := false }, summary := [], risks := [],
    recommendation := [] }

/-- The analysis assembled from `evZero` and `parsedOk`. -/
def anZero : ArbitrageAnalysis :=
  { isSameMarket := true, sameMarketConfidence := JNum.val 80,
    marketComparisonReasoning := [], polymarketData := none,
    kalshiData := some (sourceProjection evZero []),
    arbitrage := { hasArbitrage := false }, summary := [], risks := [],
    recommendation := [] }

/-- URL objects exercising the Kalshi and Polymarket path shapes. -/
def kUrl3 : UrlObj := { pathname := "/markets/abc/def".toList }

def kUrl4 : UrlObj := { pathname := "/markets/kxa/b-c/kxa-26".toList }

def kUrl2 : UrlObj := { pathname := "/events/kxabc".toList }

def kUrlBad : UrlObj := { pathname := "/portfolio".toList }

def pUrl : UrlObj := { pathname := "/event/rain-2026/market-x".toList }

def pUrlBad : UrlObj := { pathname := "/about".toList }

/-- A Polymarket event payload with one titled market and no prices. -/
def evPayload0 : PolyEventPayload :=
  { title := "Rain event".toList, markets := some [mPoly50] }

/-- A Kalshi fetch-path event payload. -/
def kEvPayload0 : KalshiEventPayload :=
  { title := "K Rain".toList, markets := some [mKalshiFetchAbsent] }

/-- A Kalshi search response with one titled market with both price fields
absent. -/
def kSearchResp0 : List KalshiSearchEventPayload :=
  [{ title := "K ev".toList, markets := some [mKalshiSearchAbsent] }]

/-- A Polymarket search response. -/
def polySearchResp0 : List PolyEventPayload := [evPayload0]

/-- A valid Polymarket request URL. -/
def urlStr0 : Str := "https://polymarket.com/event/rain-2026".toList

/-- A request environment in which the opposite-platform (Kalshi) search
fails softly, yielding zero candidates. -/
def env0 : Env :=
  { parseUrl := fun _ => some { pathname := "/event/rain-2026".toList },
    polyEventPayload := fun _ => some evPayload0,
    kalshiEventPayload := fun _ => none,
    polySearchPayload := fun _ => none,
    kalshiSearchPayload := fun _ => none,
    queryRawText := some "rain".toList,
    judgeRawText := some "not json".toList,
    jsonParse := fun _ => none }

/-- The same environment, but the Kalshi search returns one candidate, so
the pipeline reaches the Judge — whose text then fails to parse as JSON. -/
def env1 : Env :=
  { env0 with kalshiSearchPayload := fun _ => some kSearchResp0 }

/-- A well-formed request body and POST request for `urlStr0`. -/
def body0 : ReqBody := { url := urlStr0, model := "gpt-4.1".toList }

def req0 : Req := { method := Method.POST, body := some body0 }

/-! Helper lemmas: inversion of the per-market normalizations. -/

theorem polyNormalizeMarket_title_ne_nil {m : PolyMarketPayload}
    {sm : SimplifiedMarket} (h : polyNormalizeMarket m = some sm) :
    sm.title ≠ [] := by
  dsimp only [polyNormalizeMarket] at h
  by_cases hq : m.question ≠ []
  · rw [if_pos hq, if_neg hq] at h
    injection h with h
    subst h
    exact hq
  · rw [if_neg hq] at h
    by_cases ht : m.title = []
    · rw [if_pos ht] at h
      cases h
    · rw [if_neg ht] at h
      injection h with h
      subst h
      exact ht

theorem polyNormalizeMarket_yesPrice {m : PolyMarketPayload}
    {sm : SimplifiedMarket} (h : polyNormalizeMarket m = some sm) :
    sm.yesPrice =
      match m.outcomePrices with
      | none => JNum.val 50
      | some OutcomeField.parseError => JNum.val 50
      | some (OutcomeField.parsed none) => JNum.nan
      | some (OutcomeField.parsed (some q)) => JNum.val (q * 100) := by
  dsimp only [polyNormalizeMarket] at h
  by_cases hq : m.question ≠ []
  · rw [if_pos hq, if_neg hq] at h
    injection h with h
    subst h
    rfl
  · rw [if_neg hq] at h
    by_cases ht : m.title = []
    · rw [if_pos ht] at h
      cases h
    · rw [if_neg ht] at h
      injection h with h
      subst h
      rfl

theorem kalshiFetchNormalizeMarket_title_ne_nil {m : KalshiFetchMarketPayload}
    {sm : SimplifiedMarket} (h : kalshiFetchNormalizeMarket m = some sm) :
    sm.title ≠ [] := by
  dsimp only [kalshiFetchNormalizeMarket] at h
  by_cases ht : m.title = []
  · rw [if_pos ht] at h
    cases h
  · rw [if_neg ht] at h
    injection h with h
    subst h
    exact ht

theorem kalshiFetchNormalizeMarket_yesPrice {m : KalshiFetchMarketPayload}
    {sm : SimplifiedMarket} (h : kalshiFetchNormalizeMarket m = some sm) :
    sm.yesPrice =
      jsOrNum m.last_price
        (jnHalf (jnAdd (undefToNan m.yes_bid) (undefToNan m.yes_ask))) := by
  dsimp only [kalshiFetchNormalizeMarket] at h
  by_cases ht : m.title = []
  · rw [if_pos ht] at h
    cases h
  · rw [if_neg ht] at h
    injection h with h
    subst h
    rfl

theorem kalshiSearchNormalizeMarket_title_ne_nil {m : KalshiSearchMarketPayload}
    {sm : SimplifiedMarket} (h : kalshiSearchNormalizeMarket m = some sm) :
    sm.title ≠ [] := by
  dsimp only [kalshiSearchNormalizeMarket] at h
  by_cases ht : m.title = []
  · rw [if_pos ht] at h
    cases h
  · rw [if_neg ht] at h
    injection h with h
    subst h
    exact ht

theorem kalshiSearchNormalizeMarket_yesPrice {m : KalshiSearchMarketPayload}
    {sm : SimplifiedMarket} (h : kalshiSearchNormalizeMarket m = some sm) :
    sm.yesPrice =
      match m.yesAsk, m.yesBid with
      | some a, some b => jnHalf (jnAdd (pfToJNum a) (pfToJNum b))
      | some a, none => pfToJNum a
      | none, some b => pfToJNum b
      | none, none => JNum.val 50 := by
  dsimp only [kalshiSearchNormalizeMarket] at h
  by_cases ht : m.title = []
  · rw [if_pos ht] at h
    cases h
  · rw [if_neg ht] at h
    injection h with h
    subst h
    rfl

/-! Claim C5. -/

/-- C5: backend A (OpenAI) is selected if and only if the model identifier
is in the explicit allow-list or starts with the recognized `gpt-` prefix;
every other identifier routes to backend B (Grok); and the Query Synthesizer
and the Arbitrage Judge apply this same routing rule. -/
theorem model_routing_rule (model : Str) :
    (isOpenAIModel model = true ↔
      (model ∈ OPENAI_MODELS ∨ startsWithL gptDash model = true)) ∧
    (∀ raw, ((generateSearchQuery model raw).backend = Backend.openai ↔
        isOpenAIModel model = true) ∧
      ((generateSearchQuery model raw).backend = Backend.grok ↔
        isOpenAIModel model = false)) ∧
    (∀ ev parsed, ((analyzeArbitrage model ev parsed).1 = Backend.openai ↔
        isOpenAIModel model = true) ∧
      ((analyzeArbitrage model ev parsed).1 = Backend.grok ↔
        isOpenAIModel model = false)) := by
  refine ⟨?_, ?_, ?_⟩
  · simp [isOpenAIModel]
  · intro raw
    dsimp only [generateSearchQuery]
    cases h : isOpenAIModel model <;> simp [h]
  · intro ev parsed
    dsimp only [analyzeArbitrage]
    cases h : isOpenAIModel model <;> simp [h]

theorem model_routing_rule_witness :
    isOpenAIModel "gpt-4.1".toList = true ∧
    (generateSearchQuery "gpt-4.1".toList "x".toList).backend = Backend.openai ∧
    (analyzeArbitrage "grok-4".toList evPoly (some parsedBad)).1 = Backend.grok :=
  ⟨(model_routing_rule "gpt-4.1".toList).1.mpr (Or.inl (by decide)),
    ((model_routing_rule "gpt-4.1".toList).2.1 "x".toList).1.mpr (by decide),
    ((model_routing_rule "grok-4".toList).2.2 evPoly (some parsedBad)).2.mpr (by decide)⟩

/-! Claim C1. -/

/-- C1 counterexample: on the Kalshi fetch path, a market whose price fields
are all absent is normalized to `yesPrice = NaN`, not 50 — refuting the
claim that absent or unparsable price data always yields a numeric
`yesPrice` of exactly 50. -/
theorem kalshi_fetch_absent_price_not_50 :
    kalshiFetchNormalizeMarket mKalshiFetchAbsent = some smKfetchNan ∧
    smKfetchNan.yesPrice = JNum.nan ∧ JNum.nan ≠ JNum.val 50 := by decide

/-- C1 amended: on the Polymarket paths (fetch and search share the
per-market normalization) an absent or JSON-unparsable `outcomePrices`
defaults `yesPrice` to exactly 50, and on the Kalshi search path absent
`yesAsk`/`yesBid` default to exactly 50; but on the Kalshi fetch path absent
price fields yield NaN, and a successfully JSON-parsed `outcomePrices` whose
first element is not numeric also yields NaN.  Normalization itself never
fails (it only drops markets with falsy titles). -/
theorem price_default_amended :
    (∀ m : PolyMarketPayload, ∀ sm : SimplifiedMarket,
        (m.outcomePrices = none ∨ m.outcomePrices = some OutcomeField.parseError) →
        polyNormalizeMarket m = some sm → sm.yesPrice = JNum.val 50) ∧
    (∀ m : KalshiSearchMarketPayload, ∀ sm : SimplifiedMarket,
        m.yesAsk = none → m.yesBid = none →
        kalshiSearchNormalizeMarket m = some sm → sm.yesPrice = JNum.val 50) ∧
    (∀ m : KalshiFetchMarketPayload, ∀ sm : SimplifiedMarket,
        m.last_price = none → m.yes_bid = none → m.yes_ask = none →
        kalshiFetchNormalizeMarket m = some sm → sm.yesPrice = JNum.nan) ∧
    (∀ m : PolyMarketPayload, ∀ sm : SimplifiedMarket,
        m.outcomePrices = some (OutcomeField.parsed none) →
        polyNormalizeMarket m = some sm → sm.yesPrice = JNum.nan) := by
  refine ⟨?_, ?_, ?_, ?_⟩
  · intro m sm h1 h2
    rw [polyNormalizeMarket_yesPrice h2]
    rcases h1 with h | h <;> rw [h]
  · intro m sm ha hb h2
    rw [kalshiSearchNormalizeMarket_yesPrice h2, ha, hb]
  · intro m sm hl hb ha h2
    rw [kalshiFetchNormalizeMarket_yesPrice h2, hl, hb, ha]
    rfl
  · intro m sm h1 h2
    rw [polyNormalizeMarket_yesPrice h2, h1]

theorem price_default_amended_witness :
    smPoly50.yesPrice = JNum.val 50 ∧ smKsearch50.yesPrice = JNum.val 50 ∧
    smKfetchNan.yesPrice = JNum.nan ∧ smPolyNan.yesPrice = JNum.nan :=
  ⟨price_default_amended.1 mPoly50 smPoly50 (Or.inl rfl) (by decide),
    price_default_amended.2.1 mKalshiSearchAbsent smKsearch50 rfl rfl (by decide),
    price_default_amended.2.2.1 mKalshiFetchAbsent smKfetchNan rfl rfl rfl (by decide),
    price_default_amended.2.2.2 mPolyNan smPolyNan rfl (by decide)⟩

/-! Claim C2. -/

theorem jnAdd_val_sub_cancel (y : ℚ) :
    jnAdd (JNum.val y) (JNum.val (100 - y)) = JNum.val 100 := by
  dsimp only [jnAdd]
  have h : y + (100 - y) = 100 := by ring
  rw [h]

/-- C2 counterexample: the matched-candidate slot of a produced analysis is
the AI's verbatim `matchedMarket`; with `parsedBad` reporting yes 30 / no 30
the produced `kalshiData` slot sums to 60, not 100. -/
theorem matched_slot_sum_not_100 :
    ((analyzeArbitrage "gpt-4.1".toList evPoly (some parsedBad)).2.map
        (fun a => a.kalshiData.map (fun d => jnAdd d.yesPrice d.noPrice))) =
      some (some (jnAdd (JNum.val 30) (JNum.val 30))) ∧
    jnAdd (JNum.val 30) (JNum.val 30) = JNum.val 60 ∧
    JNum.val 60 ≠ JNum.val 100 := by
  refine ⟨rfl, ?_, ?_⟩
  · show JNum.val (30 + 30) = JNum.val 60
    norm_num
  · intro h
    injection h with h
    norm_num at h

/-- C2 amended: `yesPrice + noPrice = 100` holds for the source-platform
slot of every produced analysis on the full-analysis path, and on the
early-exit path, which populates only the source-platform slot; the
matched-candidate slot is taken verbatim from the AI response and is not
constrained by construction. -/
theorem source_slot_sum_100 :
    (∀ (model : Str) (ev : SourceEventData) (parsed : ParsedJudge)
        (a : ArbitrageAnalysis),
      (analyzeArbitrage model ev (some parsed)).2 = some a →
        (slotOf ev.source a).map (fun d => jnAdd d.yesPrice d.noPrice) =
          some (JNum.val 100)) ∧
    (∀ (sp : Platform) (ev : SourceEventData) (url q : Str),
      (slotOf sp (earlyExitAnalysis sp ev url q)).map
          (fun d => jnAdd d.yesPrice d.noPrice) = some (JNum.val 100) ∧
      slotOf sp.opposite (earlyExitAnalysis sp ev url q) = none) := by
  refine ⟨?_, ?_⟩
  · intro model ev parsed a h
    dsimp only [analyzeArbitrage] at h
    injection h with h
    subst h
    cases hsrc : ev.source <;>
      simp [slotOf, hsrc, sourceProjection, jnAdd_val_sub_cancel]
  · intro sp ev url q
    cases sp <;>
      simp [slotOf, earlyExitAnalysis, Platform.opposite, jnAdd_val_sub_cancel]

theorem source_slot_sum_100_witness :
    (slotOf evPoly.source anBad).map (fun d => jnAdd d.yesPrice d.noPrice) =
      some (JNum.val 100) ∧
    (slotOf Platform.kalshi (earlyExitAnalysis Platform.kalshi evZero [] [])).map
        (fun d => jnAdd d.yesPrice d.noPrice) = some (JNum.val 100) :=
  ⟨source_slot_sum_100.1 "gpt-4.1".toList evPoly parsedBad anBad rfl,
    (source_slot_sum_100.2 Platform.kalshi evZero [] []).1⟩

/-! Claim C9. -/

/-- C9: a source event whose first market has yesPrice exactly 0 is
projected as yesPrice 50 / noPrice 50 (not 0/100) in the source-market slot,
both on the Judge path and on the early-exit path: the 50-default applies to
every falsy first-market price, not only to an absent one. -/
theorem zero_yes_price_projects_coinflip :
    ∀ (ev : SourceEventData) (model : Str) (parsed : ParsedJudge)
      (a : ArbitrageAnalysis) (m : SimplifiedMarket) (rest : List SimplifiedMarket)
      (sp : Platform) (url q : Str),
    ev.markets = m :: rest → m.yesPrice = JNum.val 0 →
    (analyzeArbitrage model ev (some parsed)).2 = some a →
    ((slotOf ev.source a).map (fun d => (d.yesPrice, d.noPrice)) =
        some (JNum.val 50, JNum.val 50)) ∧
    ((slotOf sp (earlyExitAnalysis sp ev url q)).map
        (fun d => (d.yesPrice, d.noPrice)) = some (JNum.val 50, JNum.val 50)) := by
  intro ev model parsed a m rest sp url q hm hy ha
  have h50 : yesOr50 ev.markets = 50 := by
    rw [hm]
    dsimp only [yesOr50]
    rw [hy]
    simp
  have h100 : (100 : ℚ) - yesOr50 ev.markets = 50 := by
    rw [h50]
    norm_num
  dsimp only [analyzeArbitrage] at ha
  injection ha with ha
  subst ha
  constructor
  · cases hsrc : ev.source <;> simp [slotOf, hsrc, sourceProjection, h50, h100] <;>
      norm_num
  · cases sp <;> simp [slotOf, earlyExitAnalysis, h50, h100] <;> norm_num

theorem zero_yes_price_projects_coinflip_witness :
    ((slotOf evZero.source anZero).map (fun d => (d.yesPrice, d.noPrice)) =
        some (JNum.val 50, JNum.val 50)) ∧
    ((slotOf Platform.kalshi (earlyExitAnalysis Platform.kalshi evZero [] [])).map
        (fun d => (d.yesPrice, d.noPrice)) = some (JNum.val 50, JNum.val 50)) :=
  zero_yes_price_projects_coinflip evZero "gpt-4.1".toList parsedOk anZero
    { title := "Z market".toList, yesPrice := JNum.val 0 } [] Platform.kalshi [] []
    rfl rfl rfl

/-! Claim C10. -/

/-- C10: every `SimplifiedMarket` produced by any of the four normalization
operations (fetch and search, on each platform) has a non-empty title:
upstream markets whose title/question field is missing or empty are silently
dropped. -/
theorem normalized_titles_nonempty :
    (∀ slug ev, ∀ sm ∈ (fetchPolymarketEventNorm slug ev).markets, sm.title ≠ []) ∧
    (∀ ticker ev, ∀ sm ∈ (fetchKalshiEventNorm ticker ev).markets, sm.title ≠ []) ∧
    (∀ resp, ∀ sm ∈ searchPolymarketRun resp, sm.title ≠ []) ∧
    (∀ resp, ∀ sm ∈ searchKalshiRun resp, sm.title ≠ []) := by
  refine ⟨?_, ?_, ?_, ?_⟩
  · intro slug ev sm hm
    dsimp only [fetchPolymarketEventNorm] at hm
    rw [List.mem_filterMap] at hm
    obtain ⟨x, -, hx⟩ := hm
    exact polyNormalizeMarket_title_ne_nil hx
  · intro ticker ev sm hm
    dsimp only [fetchKalshiEventNorm] at hm
    rw [List.mem_filterMap] at hm
    obtain ⟨x, -, hx⟩ := hm
    exact kalshiFetchNormalizeMarket_title_ne_nil hx
  · intro resp sm hm
    match resp with
    | none => simp [searchPolymarketRun] at hm
    | some events =>
      dsimp only [searchPolymarketRun] at hm
      rw [List.mem_flatMap] at hm
      obtain ⟨ev, -, hm⟩ := hm
      rw [List.mem_filterMap] at hm
      obtain ⟨x, -, hx⟩ := hm
      exact polyNormalizeMarket_title_ne_nil hx
  · intro resp sm hm
    match resp with
    | none => simp [searchKalshiRun] at hm
    | some events =>
      dsimp only [searchKalshiRun] at hm
      rw [List.mem_flatMap] at hm
      obtain ⟨ev, -, hm⟩ := hm
      rw [List.mem_filterMap] at hm
      obtain ⟨x, -, hx⟩ := hm
      exact kalshiSearchNormalizeMarket_title_ne_nil hx

theorem normalized_titles_nonempty_witness :
    smPoly50.title ≠ [] ∧ smKfetchNan.title ≠ [] ∧ smKsearch50.title ≠ [] :=
  ⟨normalized_titles_nonempty.1 "rain-2026".toList evPayload0 smPoly50 (by decide),
    normalized_titles_nonempty.2.1 "T".toList kEvPayload0 smKfetchNan (by decide),
    normalized_titles_nonempty.2.2.2 (some kSearchResp0) smKsearch50 (by decide)⟩

/-! Claim C4. -/

/-- C4 counterexample: a platform-B URL whose path has exactly 3 segments
under `/markets/` does not fail with MalformedUrl; the second segment is
returned uppercased. -/
theorem kalshi_three_segment_not_malformed :
    extractKalshiTicker (some kUrl3) = some "ABC".toList ∧
    extractKalshiTicker (some kUrl3) ≠ none := by decide

/-- C4 amended: for every platform-B (Kalshi) URL, if its path has at least
4 segments under `/markets/` or `/events/`, the extracted identifier is the
last segment uppercased; with 2 or 3 segments it is the second segment
uppercased; a path whose first segment is neither `markets` nor `events`, a
path with fewer than 2 segments, or an unparsable URL fails with
MalformedUrl. -/
theorem kalshi_ticker_extraction_amended :
    (∀ (u : UrlObj) (segs : List Str), pathSegments u.pathname = segs →
      ((segs.getD 0 [] = strMarkets ∨ segs.getD 0 [] = strEvents) →
        (4 ≤ segs.length →
          extractKalshiTicker (some u) = some (toUpperStr (segs.getLastD []))) ∧
        (2 ≤ segs.length → segs.length < 4 →
          extractKalshiTicker (some u) = some (toUpperStr (segs.getD 1 [])))) ∧
      ((¬(segs.getD 0 [] = strMarkets ∨ segs.getD 0 [] = strEvents) ∨
          segs.length < 2) →
        extractKalshiTicker (some u) = none)) ∧
    extractKalshiTicker none = none := by
  refine ⟨?_, rfl⟩
  intro u segs hseg
  constructor
  · intro hhead
    constructor
    · intro h4
      simp only [extractKalshiTicker]
      rw [hseg, if_pos ⟨hhead, by omega⟩, if_pos h4]
    · intro h2 h4
      simp only [extractKalshiTicker]
      rw [hseg, if_pos ⟨hhead, h2⟩, if_neg (by omega)]
  · intro hbad
    simp only [extractKalshiTicker]
    rw [hseg]
    rcases hbad with h | h
    · rw [if_neg (fun hc => h hc.1)]
    · rw [if_neg (fun hc => absurd hc.2 (by omega))]

theorem kalshi_ticker_extraction_amended_witness :
    extractKalshiTicker (some kUrl4) =
      some (toUpperStr ((pathSegments kUrl4.pathname).getLastD [])) ∧
    extractKalshiTicker (some kUrl2) =
      some (toUpperStr ((pathSegments kUrl2.pathname).getD 1 [])) ∧
    extractKalshiTicker (some kUrlBad) = none :=
  ⟨((kalshi_ticker_extraction_amended.1 kUrl4 _ rfl).1 (by decide)).1 (by decide),
    ((kalshi_ticker_extraction_amended.1 kUrl2 _ rfl).1 (by decide)).2 (by decide)
      (by decide),
    (kalshi_ticker_extraction_amended.1 kUrlBad _ rfl).2 (by decide)⟩

/-! Claim C6. -/

/-- C6: a URL whose lowercased text contains the platform-A domain is
classified as platform A; for every parsed platform-A URL whose path matches
`/event/[slug]` (optionally with trailing segments, which are ignored) the
extracted identifier is exactly the slug; if no segment immediately follows
a leading literal `event` segment, or the URL is unparsable, extraction
fails with MalformedUrl (`none`) rather than throwing. -/
theorem polymarket_slug_extraction :
    (∀ url : Str, containsSub "polymarket.com".toList (toLowerStr url) = true →
        detectPlatform url = some Platform.polymarket) ∧
    (∀ (u : UrlObj) (slug : Str) (rest : List Str),
        pathSegments u.pathname = strEvent :: slug :: rest →
        extractPolymarketSlug (some u) = some slug) ∧
    (∀ u : UrlObj,
        (∀ (slug : Str) (rest : List Str),
          pathSegments u.pathname ≠ strEvent :: slug :: rest) →
        extractPolymarketSlug (some u) = none) ∧
    extractPolymarketSlug none = none := by
  refine ⟨?_, ?_, ?_, rfl⟩
  · intro url h
    dsimp only [detectPlatform]
    rw [if_pos h]
  · intro u slug rest h
    simp only [extractPolymarketSlug]
    rw [h]
    simp
  · intro u h
    simp only [extractPolymarketSlug]
    rcases hps : pathSegments u.pathname with _ | ⟨p0, _ | ⟨p1, ps⟩⟩
    · rfl
    · rfl
    · by_cases hp : p0 = strEvent
      · exact absurd (by rw [hps, hp]) (h p1 ps)
      · simp [hp]

theorem polymarket_slug_extraction_witness :
    detectPlatform urlStr0 = some Platform.polymarket ∧
    extractPolymarketSlug (some pUrl) = some "rain-2026".toList ∧
    extractPolymarketSlug (some pUrlBad) = none :=
  ⟨polymarket_slug_extraction.1 urlStr0 (by decide),
    polymarket_slug_extraction.2.1 pUrl "rain-2026".toList ["market-x".toList]
      (by decide),
    polymarket_slug_extraction.2.2.1 pUrlBad (by
      intro slug rest hc
      have h1 : pathSegments pUrlBad.pathname = ["about".toList] := by decide
      rw [h1] at hc
      simp at hc)⟩

/-! Claim C8: lemmas about the word-splitting model, then the claim. -/

theorem mem_of_mem_splitWsAux :
    ∀ (s acc w : Str), w ∈ splitWsAux s acc → ∀ c ∈ w, c ∈ s ∨ c ∈ acc := by
  intro s
  induction s with
  | nil =>
    intro acc w hw c hc
    dsimp only [splitWsAux] at hw
    split at hw
    · cases hw
    · rw [List.mem_singleton] at hw
      subst hw
      exact Or.inr (List.mem_reverse.mp hc)
  | cons a cs ih =>
    intro acc w hw c hc
    dsimp only [splitWsAux] at hw
    split at hw
    · split at hw
      · rcases ih [] w hw c hc with h | h
        · exact Or.inl (List.mem_cons_of_mem a h)
        · cases h
      · rcases List.mem_cons.mp hw with h | h
        · subst h
          exact Or.inr (List.mem_reverse.mp hc)
        · rcases ih [] w h c hc with h2 | h2
          · exact Or.inl (List.mem_cons_of_mem a h2)
          · cases h2
    · rcases ih (a :: acc) w hw c hc with h | h
      · exact Or.inl (List.mem_cons_of_mem a h)
      · rcases List.mem_cons.mp h with h2 | h2
        · subst h2
          exact Or.inl (List.mem_cons_self _ _)
        · exact Or.inr h2

theorem splitWsAux_words_nonempty_nows :
    ∀ (s acc : Str), (∀ c ∈ acc, isWsChar c = false) →
      ∀ w ∈ splitWsAux s acc, w ≠ [] ∧ ∀ c ∈ w, isWsChar c = false := by
  intro s
  induction s with
  | nil =>
    intro acc hacc w hw
    dsimp only [splitWsAux] at hw
    split at hw
    · cases hw
    · rename_i hne
      rw [List.mem_singleton] at hw
      subst hw
      refine ⟨by simpa using hne, ?_⟩
      intro c hc
      exact hacc c (List.mem_reverse.mp hc)
  | cons a cs ih =>
    intro acc hacc w hw
    dsimp only [splitWsAux] at hw
    split at hw
    · split at hw
      · exact ih [] (by simp) w hw
      · rename_i hne
        rcases List.mem_cons.mp hw with h | h
        · subst h
          refine ⟨by simpa using hne, ?_⟩
          intro c hc
          exact hacc c (List.mem_reverse.mp hc)
        · exact ih [] (by simp) w h
    · rename_i hws
      refine ih (a :: acc) ?_ w hw
      intro c hc
      rcases List.mem_cons.mp hc with h | h
      · subst h
        simpa using hws
      · exact hacc c h

theorem splitWsAux_no_ws :
    ∀ (s : Str), (∀ c ∈ s, isWsChar c = false) → ∀ acc : Str,
      splitWsAux s acc =
        if acc.reverse ++ s = [] then [] else [acc.reverse ++ s] := by
  intro s
  induction s with
  | nil =>
    intro _ acc
    dsimp only [splitWsAux]
    by_cases h : acc = []
    · subst h
      simp
    · rw [if_neg h, if_neg (by simpa using h)]
      simp
  | cons a cs ih =>
    intro hs acc
    dsimp only [splitWsAux]
    rw [if_neg (by simp [hs a (List.mem_cons_self a cs)])]
    rw [ih (fun c hc => hs c (List.mem_cons_of_mem a hc)) (a :: acc)]
    rw [if_neg (by simp), if_neg (by simp)]
    simp

theorem splitWsAux_append_word :
    ∀ (w : Str), (∀ c ∈ w, isWsChar c = false) → ∀ (s acc : Str),
      splitWsAux (w ++ s) acc = splitWsAux s (w.reverse ++ acc) := by
  intro w
  induction w with
  | nil =>
    intro _ s acc
    simp
  | cons a cs ih =>
    intro hw s acc
    rw [List.cons_append]
    dsimp only [splitWsAux]
    rw [if_neg (by simp [hw a (List.mem_cons_self a cs)])]
    rw [ih (fun c hc => hw c (List.mem_cons_of_mem a hc)) s (a :: acc)]
    simp

theorem wordsOf_single {w : Str} (hne : w ≠ [])
    (hnows : ∀ c ∈ w, isWsChar c = false) : wordsOf w = [w] := by
  dsimp only [wordsOf]
  rw [splitWsAux_no_ws w hnows []]
  simp [hne]

theorem wordsOf_pair {w1 w2 : Str} (h1 : w1 ≠ []) (h2 : w2 ≠ [])
    (hn1 : ∀ c ∈ w1, isWsChar c = false) (hn2 : ∀ c ∈ w2, isWsChar c = false) :
    wordsOf (w1 ++ ' ' :: w2) = [w1, w2] := by
  dsimp only [wordsOf]
  rw [splitWsAux_append_word w1 hn1 (' ' :: w2) []]
  dsimp only [splitWsAux]
  rw [if_pos (by decide), if_neg (by simpa using h1)]
  rw [splitWsAux_no_ws w2 hn2 []]
  rw [if_neg (by simpa using h2)]
  simp

theorem mem_trimStr {c : Char} {s : Str} (h : c ∈ trimStr s) : c ∈ s := by
  dsimp only [trimStr] at h
  rw [List.mem_reverse] at h
  have h1 : c ∈ (s.dropWhile isWsChar).reverse := (List.dropWhile_sublist _).subset h
  rw [List.mem_reverse] at h1
  exact (List.dropWhile_sublist _).subset h1

theorem mem_joinSpace :
    ∀ (ws : List Str) (c : Char), c ∈ joinSpace ws →
      (∃ w ∈ ws, c ∈ w) ∨ c = ' ' := by
  intro ws
  induction ws with
  | nil =>
    intro c hc
    cases hc
  | cons w ws ih =>
    intro c hc
    cases ws with
    | nil =>
      dsimp only [joinSpace] at hc
      exact Or.inl ⟨w, List.mem_cons_self _ _, hc⟩
    | cons w2 ws2 =>
      dsimp only [joinSpace] at hc
      rcases List.mem_append.mp hc with h | h
      · exact Or.inl ⟨w, List.mem_cons_self _ _, h⟩
      · rcases List.mem_cons.mp h with h2 | h2
        · exact Or.inr h2
        · rcases ih c h2 with ⟨w3, hw3, hcw3⟩ | h3
          · exact Or.inl ⟨w3, List.mem_cons_of_mem w hw3, hcw3⟩
          · exact Or.inr h3

/-- C8: for every raw completion text returned by the Query Synthesizer's AI
backend, the synthesized query (quotes removed, trimmed, split on
whitespace, first two tokens kept, rejoined with a single space) contains no
quote characters and at most two whitespace-separated words. -/
theorem query_cleanup_two_words (text : Str) :
    (∀ c ∈ cleanupQuery text, isQuoteChar c = false) ∧
    (wordsOf (cleanupQuery text)).length ≤ 2 := by
  dsimp only [cleanupQuery]
  set cleaned := trimStr (removeQuotes text) with hcl
  have hclean_mem : ∀ c ∈ cleaned, isQuoteChar c = false := by
    intro c hc
    rw [hcl] at hc
    have h1 := mem_trimStr hc
    dsimp only [removeQuotes] at h1
    rw [List.mem_filter] at h1
    simpa using h1.2
  have hmemw : ∀ w ∈ wordsOf cleaned, ∀ c ∈ w, c ∈ cleaned := by
    intro w hw c hc
    rcases mem_of_mem_splitWsAux cleaned [] w hw c hc with h | h
    · exact h
    · cases h
  have hwords := splitWsAux_words_nonempty_nows cleaned [] (by simp)
  by_cases hnil : cleaned = []
  · rw [hnil]
    constructor
    · intro c hc
      simp [jsSplitWs, joinSpace] at hc
    · decide
  · simp only [jsSplitWs, if_neg hnil]
    rcases hws : wordsOf cleaned with _ | ⟨w1, _ | ⟨w2, rest⟩⟩
    · constructor
      · intro c hc
        simp [joinSpace] at hc
      · simp [joinSpace, wordsOf, splitWsAux]
    · have hw1 := hwords w1 (by rw [← wordsOf, hws]; exact List.mem_cons_self _ _)
      have hm1 : w1 ∈ wordsOf cleaned := by
        rw [hws]
        exact List.mem_cons_self _ _
      constructor
      · intro c hc
        dsimp only [List.take, joinSpace] at hc
        exact hclean_mem c (hmemw w1 hm1 c hc)
      · dsimp only [List.take, joinSpace]
        rw [wordsOf_single hw1.1 hw1.2]
        simp
    · have hw1 := hwords w1 (by rw [← wordsOf, hws]; exact List.mem_cons_self _ _)
      have hw2 := hwords w2 (by
        rw [← wordsOf, hws]
        exact List.mem_cons_of_mem _ (List.mem_cons_self _ _))
      have hm1 : w1 ∈ wordsOf cleaned := by
        rw [hws]
        exact List.mem_cons_self _ _
      have hm2 : w2 ∈ wordsOf cleaned := by
        rw [hws]
        exact List.mem_cons_of_mem _ (List.mem_cons_self _ _)
      constructor
      · intro c hc
        dsimp only [List.take, joinSpace] at hc
        rcases List.mem_append.mp hc with h | h
        · exact hclean_mem c (hmemw w1 hm1 c h)
        · rcases List.mem_cons.mp h with h2 | h2
          · subst h2
            decide
          · exact hclean_mem c (hmemw w2 hm2 c h2)
      · dsimp only [List.take, joinSpace]
        rw [wordsOf_pair hw1.1 hw2.1 hw1.2 hw2.2]
        simp

theorem query_cleanup_two_words_witness :
    isQuoteChar 'F' = false ∧
    (wordsOf (cleanupQuery "  \x22Fed rate cut decision\x22  ".toList)).length ≤ 2 :=
  ⟨(query_cleanup_two_words "  \x22Fed rate cut decision\x22  ".toList).1 'F' (by decide),
    (query_cleanup_two_words "  \x22Fed rate cut decision\x22  ".toList).2⟩

/-! Claim C3. -/

/-- C3: whenever the source event is fetched with at least one market, query
synthesis succeeds, and the opposite-platform search returns an empty
candidate sequence, the response is a 200 with `success = true`,
`isSameMarket = false`, `sameMarketConfidence = 0`,
`arbitrage.hasArbitrage = false`, and the Arbitrage Judge is never
invoked. -/
theorem early_exit_no_judge :
    ∀ (env : Env) (b : ReqBody) (sp : Platform) (ident : Str)
      (ev : SourceEventData) (raw : Str),
    b.url ≠ [] → b.model ≠ [] →
    detectPlatform b.url = some sp →
    resolveIdent env sp b.url = some ident →
    fetchSourceEvent env sp ident = some ev →
    ev.markets ≠ [] →
    env.queryRawText = some raw →
    searchOpposite env sp (generateSearchQuery b.model raw).query = [] →
    (handleRequest env { method := Method.POST, body := some b }).resp.status = 200 ∧
    (handleRequest env { method := Method.POST, body := some b }).resp.body.map
        RespBody.success = some true ∧
    (((handleRequest env { method := Method.POST, body := some b }).resp.body.bind
          RespBody.data).map
        (fun d => (d.isSameMarket, d.sameMarketConfidence, d.arbitrage.hasArbitrage)) =
      some (false, JNum.val 0, false)) ∧
    (handleRequest env { method := Method.POST, body := some b }).judgeCalls = 0 := by
  intro env b sp ident ev raw hurl hmodel hplat hid hfetch hmk hq hsearch
  have hout : handleRequest env { method := Method.POST, body := some b } =
      ⟨⟨200, some ⟨true, none,
          some (earlyExitAnalysis sp ev b.url (generateSearchQuery b.model raw).query)⟩⟩,
        0⟩ := by
    simp only [handleRequest, if_neg hurl, if_neg hmodel, hplat, hid, hfetch,
      if_neg hmk, hq, if_pos hsearch]
  rw [hout]
  refine ⟨rfl, rfl, ?_, rfl⟩
  simp [earlyExitAnalysis]

theorem early_exit_no_judge_witness :
    (handleRequest env0 req0).resp.status = 200 ∧
    (handleRequest env0 req0).resp.body.map RespBody.success = some true ∧
    (((handleRequest env0 req0).resp.body.bind RespBody.data).map
        (fun d => (d.isSameMarket, d.sameMarketConfidence, d.arbitrage.hasArbitrage)) =
      some (false, JNum.val 0, false)) ∧
    (handleRequest env0 req0).judgeCalls = 0 :=
  early_exit_no_judge env0 body0 Platform.polymarket "rain-2026".toList
    (fetchPolymarketEventNorm "rain-2026".toList evPayload0) "rain".toList
    (by decide) (by decide) (by decide) (by decide) rfl (by decide) rfl (by decide)

/-! Claim C7. -/

/-- C7: whenever the pipeline reaches the Arbitrage Judge and the AI
backend's response text is not parseable as JSON, the request fails with
HTTP 500 and `success = false`, and no partial analysis is included in the
response. -/
theorem judge_parse_failure_500 :
    ∀ (env : Env) (b : ReqBody) (sp : Platform) (ident : Str)
      (ev : SourceEventData) (raw jt : Str),
    b.url ≠ [] → b.model ≠ [] →
    detectPlatform b.url = some sp →
    resolveIdent env sp b.url = some ident →
    fetchSourceEvent env sp ident = some ev →
    ev.markets ≠ [] →
    env.queryRawText = some raw →
    searchOpposite env sp (generateSearchQuery b.model raw).query ≠ [] →
    env.judgeRawText = some jt →
    env.jsonParse jt = none →
    (handleRequest env { method := Method.POST, body := some b }).resp.status = 500 ∧
    (handleRequest env { method := Method.POST, body := some b }).resp.body.map
        RespBody.success = some false ∧
    ((handleRequest env { method := Method.POST, body := some b }).resp.body.bind
        RespBody.data) = none ∧
    (handleRequest env { method := Method.POST, body := some b }).judgeCalls = 1 := by
  intro env b sp ident ev raw jt hurl hmodel hplat hid hfetch hmk hq hsearch hjt hparse
  have hout : handleRequest env { method := Method.POST, body := some b } =
      ⟨⟨500, some ⟨false, some msgUnhandled, none⟩⟩, 1⟩ := by
    simp only [handleRequest, if_neg hurl, if_neg hmodel, hplat, hid, hfetch,
      if_neg hmk, hq, if_neg hsearch, hjt, hparse, analyzeArbitrage]
  rw [hout]
  exact ⟨rfl, rfl, rfl, rfl⟩

theorem judge_parse_failure_500_witness :
    (handleRequest env1 req0).resp.status = 500 ∧
    (handleRequest env1 req0).resp.body.map RespBody.success = some false ∧
    ((handleRequest env1 req0).resp.body.bind RespBody.data) = none ∧
    (handleRequest env1 req0).judgeCalls = 1 :=
  judge_parse_failure_500 env1 body0 Platform.polymarket "rain-2026".toList
    (fetchPolymarketEventNorm "rain-2026".toList evPayload0) "rain".toList
    "not json".toList
    (by decide) (by decide) (by decide) (by decide) rfl (by decide) rfl (by decide)
    rfl rfl
